import Mathlib

/-
Verification development for the stmpy matio conversion layer.

The Python module src/stmpy/matio.py converts between NVL-derived in-memory
records (the pymap class) and the dictionary layout written to .mat files.
This file gives a shallow embedding of that module:

  * Python / numpy values are modelled by the inductive type PyVal.  Numeric
    arrays carry Int entries (the claims never depend on float semantics);
    0-d, 1-d, 2-d and 3-d numeric arrays, 0-d and 1-d string arrays, (1,1)
    structured arrays (format_mat_struct output) and (1,N) object cell arrays
    (format_mat_cell output) each get a constructor.  The distinction between
    a plain Python str and a numpy np.str_ scalar is load-bearing in the
    source (type(obj) == np.str_ tests) and is kept: constructors pstr and
    npstr.
  * A pymap object is represented by its attribute dictionary (__dict__),
    an association list Attrs preserving insertion order, exactly as vars()
    iterates it.  dset models Python dictionary assignment (update in place,
    append if new), dget models lookup.
  * Fallible code returns Except PyErr; nvl2pymap additionally returns the
    partially mutated object alongside the error, mirroring the fact that a
    Python exception leaves the already performed attribute assignments in
    place on the object.
  * File I/O is modelled by value passing: nvl2mat takes the loaded NVL
    record and returns the list of file contents written by savemat next to
    the conversion result, so that -no output file written- is expressible.
-/

/-! ### String constants of the source module -/

def kOps : String := "ops"
def kMap : String := "map"
def kEn : String := "en"
def kE : String := "e"
def kAve : String := "ave"
def kInfo : String := "info"
def kHeader : String := "header"
def kCoordType : String := "coord_type"
def kName : String := "name"
def kVar : String := "var"
def kFILENAME : String := "FILENAME"
def kZero : String := "0"
def sNvl2pymap : String := "nvl2pymap"
def sR : String := "r"
def sNoValue : String := "No value"
def sRecarrayDeleted : String := "Recarray deleted in NVL to MAT conversion"
def sDunder : String := "__"

/-! ### Python errors -/

/-- Built-in Python exception kinds raised along the paths the claims touch. -/
inductive PyErr where
  | indexError
  | axisError
  | typeError
  | keyError (k : String)
  | attributeError (k : String)
  deriving DecidableEq, Repr

/-! ### Python / numpy values -/

/-- Shallow model of the Python and numpy values flowing through matio.py.
Numeric entries are Int; the claims are about structure, not float
arithmetic.  pstr is a plain Python str, npstr the numpy np.str_ scalar
(a distinction the source tests with type(obj) == np.str_).  struct models
the (1,1) structured ndarray produced by format_mat_struct, each field
holding one stored object; cell models the (1,N) object ndarray produced by
format_mat_cell. -/
inductive PyVal where
  | pstr (s : String)
  | npstr (s : String)
  | pyint (n : Int)
  | pnone
  | recarr
  | list (xs : List PyVal)
  | dict (xs : List (String × PyVal))
  | arr0s (s : String)
  | arr0i (n : Int)
  | arr1s (xs : List String)
  | arr1i (xs : List Int)
  | arr2i (xs : List (List Int))
  | arr3i (xs : List (List (List Int)))
  | struct (fields : List (String × PyVal))
  | cell (xs : List PyVal)
  deriving Repr

/-- Attribute dictionary of a pymap object (its __dict__), or any other
string-keyed Python dictionary; insertion order is the list order. -/
abbrev Attrs := List (String × PyVal)

/-- Dictionary lookup, first match. -/
def dget : Attrs → String → Option PyVal
  | [], _ => none
  | (k, v) :: rest, key => if k = key then some v else dget rest key

/-- Python dictionary assignment d[key] = v: an existing key keeps its
position and gets the new value, a new key is appended at the end. -/
def dset : Attrs → String → PyVal → Attrs
  | [], key, v => [(key, v)]
  | (k, w) :: rest, key, v =>
      if k = key then (k, v) :: rest else (k, w) :: dset rest key v

/-- Fresh pymap object: __init__ sets self.ops = []. -/
def newPymap : Attrs := [(kOps, PyVal.list [])]

/-! ### numpy helpers used by the source -/

/-- Model of np.copy on the values the pipeline copies: a plain or numpy
string scalar becomes a 0-d string array, an int scalar a 0-d numeric
array; ndarray values copy to equal values.  Other Python objects are
returned unchanged (value semantics make the copy invisible). -/
def npCopy : PyVal → PyVal
  | .pstr s => .arr0s s
  | .npstr s => .arr0s s
  | .pyint n => .arr0i n
  | v => v

/-- Model of np.array([x]): wrapping an array in a one-element list prepends
an axis; wrapping any other object yields a one-element object container. -/
def npArrayWrap1 : PyVal → PyVal
  | .arr0s s => .arr1s [s]
  | .arr0i n => .arr1i [n]
  | .arr1i xs => .arr2i [xs]
  | .arr2i m => .arr3i [m]
  | v => .cell [v]

/-- Shape of a numpy value in this model ([] for scalars and non-arrays). -/
def npShape : PyVal → List Nat
  | .arr0s _ => []
  | .arr0i _ => []
  | .arr1s xs => [xs.length]
  | .arr1i xs => [xs.length]
  | .arr2i m => [m.length, (m.headD []).length]
  | .arr3i x => [x.length, (x.headD []).length, ((x.headD []).headD []).length]
  | .struct _ => [1, 1]
  | .cell xs => [1, xs.length]
  | _ => []

/-- Number of array dimensions. -/
def npNdim (v : PyVal) : Nat := (npShape v).length

/-- Indexing v[0] in Python, as the source performs it on every mhh value
(mat2pymap line 103) and on wrapped struct fields.  A 0-d array raises
IndexError; a (1,1) struct array yields its (1,)-slice (modelled by the
struct itself, downstream code only tests its type); the first row of a
(1,N) cell array is a 1-d object sequence. -/
def pyGetIdx0 : PyVal → Except PyErr PyVal
  | .pstr s => if s.isEmpty then .error .indexError else .ok (.pstr (s.take 1))
  | .npstr s => if s.isEmpty then .error .indexError else .ok (.pstr (s.take 1))
  | .pyint _ => .error .typeError
  | .pnone => .error .typeError
  | .recarr => .ok .recarr
  | .list [] => .error .indexError
  | .list (x :: _) => .ok x
  | .dict _ => .error (.keyError kZero)
  | .arr0s _ => .error .indexError
  | .arr0i _ => .error .indexError
  | .arr1s [] => .error .indexError
  | .arr1s (s :: _) => .ok (.npstr s)
  | .arr1i [] => .error .indexError
  | .arr1i (n :: _) => .ok (.pyint n)
  | .arr2i [] => .error .indexError
  | .arr2i (r :: _) => .ok (.arr1i r)
  | .arr3i [] => .error .indexError
  | .arr3i (m :: _) => .ok (.arr2i m)
  | .struct fields => .ok (.struct fields)
  | .cell xs => .ok (.list xs)

/-- Test type(x) is np.str_ on the result of an indexing step. -/
def isNpStrScalar : PyVal → Bool
  | .npstr _ => true
  | _ => false

/-! ### Rectangular 3-d arrays and the axis swaps -/

/-- Element access with defaults; in-bounds access on rectangular data is
what the theorems quantify over. -/
def get2 (m : List (List Int)) (i j : Nat) : Int := (m.getD i []).getD j 0

/-- Element (i, j, k) of a 3-d array. -/
def get3 (x : List (List (List Int))) (i j k : Nat) : Int :=
  ((x.getD i []).getD j []).getD k 0

/-- Column c of a 2-d array. -/
def col2 (m : List (List Int)) (c : Nat) : List Int := m.map (fun r => r.getD c 0)

/-- Transpose of a rectangular 2-d array (width taken from the first row,
as numpy reads the shape). -/
def t2 (m : List (List Int)) : List (List Int) :=
  (List.range (m.headD []).length).map (col2 m)

/-- np.swapaxes(x, 1, 2) on a 3-d array: transpose every outer slice. -/
def swap12 (x : List (List (List Int))) : List (List (List Int)) := x.map t2

/-- np.swapaxes(x, 0, 1) on a 3-d array: transpose the outer two levels. -/
def swap01 (x : List (List (List Int))) : List (List (List Int)) :=
  (List.range ((x.headD []).length)).map (fun i => x.map (fun m => m.getD i []))

/-- Rectangularity: x has shape (a, b, c). -/
def Rect3 (x : List (List (List Int))) (a b c : Nat) : Prop :=
  x.length = a ∧ ∀ m ∈ x, m.length = b ∧ ∀ r ∈ m, r.length = c

/-- np.swapaxes(v, 1, 2) as applied to self.map (mat2pymap line 123); on
anything below three dimensions numpy raises AxisError (axis 2 out of
bounds), modelled for the ndarray constructors this pipeline stores. -/
def pySwapaxes12 : PyVal → Except PyErr PyVal
  | .arr3i x => .ok (.arr3i (swap12 x))
  | _ => .error .axisError

/-- np.swapaxes(v, 0, 1) (mat2pymap line 124); a 2-d array transposes, a 3-d
array swaps its outer axes, smaller arrays raise AxisError. -/
def pySwapaxes01 : PyVal → Except PyErr PyVal
  | .arr3i x => .ok (.arr3i (swap01 x))
  | .arr2i m => .ok (.arr2i (t2 m))
  | _ => .error .axisError

/-! ### Type coercion layer (nvl2pymap lines 70-84) -/

/-- Per-value coercion of the metadata loop: None becomes the placeholder
string, an np.recarray value becomes the deletion notice, everything else
passes through. -/
def coerceVal : PyVal → PyVal
  | .pnone => .pstr sNoValue
  | .recarr => .pstr sRecarrayDeleted
  | v => v

/-- The reduced dictionary nvlred built by the loop: same keys, same order,
coerced values. -/
def coerceMap (m : Attrs) : Attrs := m.map (fun p => (p.1, coerceVal p.2))

/-! ### Struct and cell formatters (lines 168-198) -/

/-- format_mat_struct: a (1,1) structured array whose field names are the
keys of the dictionary in order; field ikey stores the one-element list
[np.copy(value)]. -/
def format_mat_struct (matred : Attrs) : PyVal :=
  .struct (matred.map (fun p => (p.1, PyVal.list [npCopy p.2])))

/-- format_mat_cell: a (1, len) object array whose i-th cell stores
np.array([np.copy(element i)]). -/
def format_mat_cell (matred : List PyVal) : PyVal :=
  .cell (matred.map (fun v => npArrayWrap1 (npCopy v)))

/-! ### pymap2mat (lines 128-156) -/

/-- Emission of one attribute by pymap2mat: np.str_ values are wrapped in a
one-element string array, dictionaries go through format_mat_struct, lists
through format_mat_cell, the key en is renamed e with a copied value, and
every other value is np.copied under its own key. -/
def p2mEmit : String × PyVal → String × PyVal
  | (key, .npstr s) => (key, .arr1s [s])
  | (key, .dict d) => (key, format_mat_struct d)
  | (key, .list l) => (key, format_mat_cell l)
  | (key, v) => if key = kEn then (kE, npCopy v) else (key, npCopy v)

/-- pymap2mat: iterate vars(self) in insertion order, building mhh by
dictionary assignment. -/
def pymap2mat (pydct : Attrs) : Attrs :=
  pydct.foldl (fun mhh p => dset mhh (p2mEmit p).1 (p2mEmit p).2) []

/-! ### mat2pymap (lines 94-126) -/

/-- Unwrapping loop of the info branch: self.info[ikey] = x[ikey][0][0][0];
the first two indexings reach the object stored in the (1,1) struct field,
the third is one more Python indexing on that object. -/
def structUnwrapFields : Attrs → Except PyErr Attrs
  | [] => .ok []
  | (k, stored) :: rest => do
      let v ← pyGetIdx0 stored
      let tail ← structUnwrapFields rest
      .ok ((k, v) :: tail)

/-- Unwrapping loop of the ops branch: iterate the first row of the cell
array, appending obj[0] for each cell. -/
def cellUnwrapList : List PyVal → Except PyErr (List PyVal)
  | [] => .ok []
  | x :: rest => do
      let v ← pyGetIdx0 x
      let tail ← cellUnwrapList rest
      .ok (v :: tail)

/-- The info branch of the dispatch loop: iterate x.dtype.names, which a
value without named sub-fields does not expose (TypeError); for a struct,
unwrap every field through one more indexing. -/
def m2pInfoBranch (st : Attrs) (v : PyVal) : Except PyErr Attrs :=
  match v with
  | .struct fields => do
      let ifields ← structUnwrapFields fields
      .ok (dset st kInfo (.dict ifields))
  | _ => .error .typeError

/-- The ops branch of the dispatch loop: iterate the first row of the cell
array, appending one unwrapped entry per cell; a non-cell value fails. -/
def m2pOpsBranch (st : Attrs) (v : PyVal) : Except PyErr Attrs :=
  match v with
  | .cell xs => do
      let ops ← cellUnwrapList xs
      .ok (dset st kOps (.list ops))
  | _ => .error .typeError

/-- One iteration of the mat2pymap dispatch loop for key/value (key, v):
first the string test type(mhh[key][0]) is np.str_ (which can itself raise,
e.g. IndexError on a 0-d value), then the reserved keys info, ops, e, then
the raw setattr fallback. -/
def m2pStep (st : Attrs) (key : String) (v : PyVal) : Except PyErr Attrs := do
  let first ← pyGetIdx0 v
  if isNpStrScalar first then
    .ok (dset st key first)
  else if key = kInfo then
    m2pInfoBranch st v
  else if key = kOps then
    m2pOpsBranch st v
  else if key = kE then
    .ok (dset st kEn v)
  else
    .ok (dset st key v)

/-- The dispatch loop over all entries of mhh in order. -/
def m2pLoop : Attrs → Attrs → Except PyErr Attrs
  | st, [] => .ok st
  | st, (k, v) :: rest => do
      let st2 ← m2pStep st k v
      m2pLoop st2 rest

/-- mat2pymap: dispatch every field, then make the energy axis the first
index by self.map = swapaxes(swapaxes(self.map, 1, 2), 0, 1); a missing map
attribute raises AttributeError at that point. -/
def mat2pymap (self : Attrs) (mhh : Attrs) : Except PyErr Attrs := do
  let st ← m2pLoop self mhh
  let m ← match dget st kMap with
          | some m => Except.ok m
          | none => Except.error (PyErr.attributeError kMap)
  let m1 ← pySwapaxes12 m
  let m2 ← pySwapaxes01 m1
  .ok (dset st kMap m2)

/-! ### nvl2pymap (lines 58-92) and nvl2mat (lines 38-50) -/

/-- Loaded NVL record: the attributes nvl2pymap reads from it. -/
structure Nvl where
  data : PyVal
  en : PyVal
  averageSpectrum : PyVal
  info : Attrs
  header : Attrs

/-- nvl2pymap: copy data/en/averageSpectrum, append the op name, coerce the
info and header dictionaries, set coord_type, then derive name and var from
info[FILENAME] - a missing FILENAME key raises KeyError there, after all the
preceding attribute assignments have already mutated the object; the partial
object accompanies the error. -/
def nvl2pymap (self : Attrs) (nvl : Nvl) : Except (PyErr × Attrs) Attrs :=
  let st := dset self kMap (npCopy nvl.data)
  let st := dset st kEn (npCopy nvl.en)
  let st := dset st kAve (npCopy nvl.averageSpectrum)
  match dget st kOps with
  | some (.list l) =>
      let st := dset st kOps (.list (l ++ [.pstr sNvl2pymap]))
      let st := dset st kInfo (.dict (coerceMap nvl.info))
      let st := dset st kHeader (.dict (coerceMap nvl.header))
      let st := dset st kCoordType (.pstr sR)
      match dget (coerceMap nvl.info) kFILENAME with
      | some v => .ok (dset (dset st kName v) kVar v)
      | none => .error (.keyError kFILENAME, st)
  | _ => .error (.attributeError kOps, st)

/-- nvl2mat on an already loaded NVL record: create a pymap, convert, then
savemat.  The first component is the list of file contents written during
the call (savemat writes pymap2mat of the object); on a conversion error
nothing is written. -/
def nvl2mat (nvl : Nvl) : List Attrs × Except (PyErr × Attrs) Attrs :=
  match nvl2pymap newPymap nvl with
  | .ok d => ([pymap2mat d], .ok d)
  | .error e => ([], .error e)

/-! ### loadmat (lines 7-36) -/

/-- The try block of loadmat: a value exposing named sub-fields (a (1,1)
struct array) unpacks each field through two singleton indexings to the
stored object; any other value makes the iteration over dtype.names raise,
which the bare except turns into the raw fallback. -/
def unpackVar : PyVal → Option Attrs
  | .struct fields => some fields
  | _ => none

/-- The value loadmat stores for one kept variable. -/
def unpackOrRaw (v : PyVal) : PyVal :=
  match unpackVar v with
  | some m => .dict m
  | none => v

/-- One iteration of the loadmat loop: skip a reserved double underscore
name, otherwise store the unpacked dictionary or the raw value. -/
def lmStep (data : Attrs) (p : String × PyVal) : Attrs :=
  if p.1.startsWith sDunder then data
  else
    match unpackVar p.2 with
    | some m => dset data p.1 (.dict m)
    | none => dset data p.1 p.2

/-- loadmat: skip every variable whose name starts with the double
underscore prefix, unpack struct-like variables into a dictionary, store
everything else raw. -/
def loadmat (fileObject : Attrs) : Attrs :=
  fileObject.foldl lmStep []

/-- Predicate keeping the variables loadmat imports. -/
def notDunder (p : String × PyVal) : Bool := !(p.1.startsWith sDunder)

/-! ### Derived model definitions used by the claims -/

/-- Numeric or string arrays of dimension strictly below three, the values
claim C10 quantifies the map entry over. -/
def isSub3Arr : PyVal → Bool
  | .arr0s _ => true
  | .arr0i _ => true
  | .arr1s _ => true
  | .arr1i _ => true
  | .arr2i _ => true
  | _ => false

/-- Canonical record shape for the round-trip claim: the attribute layout
nvl2pymap produces (ops list, 3-d map, 1-d en and ave, info and header
dictionaries, coord_type, name, var), with every string-valued attribute a
numpy string scalar - the class of records on which the reverse transform
does not raise (a plain Python str attribute round-trips into a 0-d array
whose indexing raises, see the counterexample). -/
structure CanonRecord where
  ops : List String
  map : List (List (List Int))
  en : List Int
  ave : List Int
  info : Attrs
  header : Attrs
  coord_type : String
  name : String
  var : String

/-- The attribute dictionary of a CanonRecord, in nvl2pymap insertion
order. -/
def toAttrs (R : CanonRecord) : Attrs :=
  [(kOps, .list (R.ops.map PyVal.pstr)),
   (kMap, .arr3i R.map),
   (kEn, .arr1i R.en),
   (kAve, .arr1i R.ave),
   (kInfo, .dict R.info),
   (kHeader, .dict R.header),
   (kCoordType, .npstr R.coord_type),
   (kName, .npstr R.name),
   (kVar, .npstr R.var)]

/-- The object state after the seven attribute assignments nvl2pymap makes
before looking up FILENAME. -/
def nvl2pymapPartial (self : Attrs) (l : List PyVal) (nvl : Nvl) : Attrs :=
  dset (dset (dset (dset (dset (dset (dset self
    kMap (npCopy nvl.data))
    kEn (npCopy nvl.en))
    kAve (npCopy nvl.averageSpectrum))
    kOps (PyVal.list (l ++ [PyVal.pstr sNvl2pymap])))
    kInfo (PyVal.dict (coerceMap nvl.info)))
    kHeader (PyVal.dict (coerceMap nvl.header)))
    kCoordType (PyVal.pstr sR)

/-- Concrete NVL record with a FILENAME entry, used as evaluation input. -/
def nvlA : Nvl :=
  ⟨PyVal.arr3i [[[1]]], PyVal.arr1i [2], PyVal.arr1i [3],
    [(kFILENAME, PyVal.npstr "f"), ("T", PyVal.pnone)],
    [("h1", PyVal.npstr "hv")]⟩

/-- Concrete NVL record without a FILENAME entry, used as evaluation
input. -/
def nvlB : Nvl :=
  ⟨PyVal.arr3i [[[1]]], PyVal.arr1i [2], PyVal.arr1i [3],
    [("T", PyVal.pnone)], []⟩

/-! ### Dictionary lemmas -/

theorem dget_dset_self (d : Attrs) (k : String) (v : PyVal) :
    dget (dset d k v) k = some v := by
  induction d with
  | nil => simp [dget, dset]
  | cons p rest ih =>
      obtain ⟨pk, pv⟩ := p
      by_cases h : pk = k
      · simp [dget, dset, h]
      · simp [dget, dset, h, ih]

theorem dget_dset_ne (d : Attrs) (k k' : String) (v : PyVal) (h : k' ≠ k) :
    dget (dset d k v) k' = dget d k' := by
  have h' : ¬k = k' := fun hh => h hh.symm
  induction d with
  | nil => simp [dget, dset, h']
  | cons p rest ih =>
      obtain ⟨pk, pv⟩ := p
      by_cases hp : pk = k
      · subst hp
        simp [dget, dset, h']
      · simp only [dset, if_neg hp]
        by_cases hp' : pk = k'
        · simp [dget, hp']
        · simp [dget, hp', ih]

theorem dset_eq_append (d : Attrs) (k : String) (v : PyVal)
    (h : k ∉ d.map Prod.fst) : dset d k v = d ++ [(k, v)] := by
  induction d with
  | nil => simp [dset]
  | cons p rest ih =>
      obtain ⟨pk, pv⟩ := p
      simp only [List.map_cons, List.mem_cons] at h
      push_neg at h
      have h1 : ¬pk = k := fun hh => h.1 hh.symm
      simp [dset, h1, ih h.2]

theorem dget_eq_none (d : Attrs) (k : String) :
    dget d k = none ↔ k ∉ d.map Prod.fst := by
  induction d with
  | nil => simp [dget]
  | cons p rest ih =>
      obtain ⟨pk, pv⟩ := p
      by_cases h : pk = k
      · simp [dget, h]
      · have h' : ¬k = pk := fun hh => h hh.symm
        simp [dget, h, h', ih]

theorem dget_split (d : Attrs) (k : String) (v : PyVal) (h : dget d k = some v) :
    ∃ pre post, d = pre ++ (k, v) :: post ∧ k ∉ pre.map Prod.fst := by
  induction d with
  | nil => simp [dget] at h
  | cons p rest ih =>
      obtain ⟨pk, pv⟩ := p
      by_cases hp : pk = k
      · subst hp
        have hv : pv = v := by simpa [dget] using h
        subst hv
        exact ⟨[], rest, rfl, by simp⟩
      · simp only [dget, if_neg hp] at h
        obtain ⟨pre, post, hd, hpre⟩ := ih h
        have h' : ¬k = pk := fun hh => hp hh.symm
        exact ⟨(pk, pv) :: pre, post, by simp [hd], by simp [hpre, h']⟩

/-! ### Coercion lemmas -/

theorem coerceMap_nil : coerceMap [] = [] := rfl

theorem coerceMap_cons (p : String × PyVal) (rest : Attrs) :
    coerceMap (p :: rest) = (p.1, coerceVal p.2) :: coerceMap rest := rfl

theorem coerceMap_keys (m : Attrs) :
    (coerceMap m).map Prod.fst = m.map Prod.fst := by
  induction m with
  | nil => rfl
  | cons p rest ih => simp [coerceMap_cons, ih]

theorem dget_coerceMap (m : Attrs) (k : String) :
    dget (coerceMap m) k = (dget m k).map coerceVal := by
  induction m with
  | nil => rfl
  | cons p rest ih =>
      obtain ⟨pk, pv⟩ := p
      by_cases h : pk = k
      · simp [coerceMap_cons, dget, h]
      · have hstep : dget (coerceMap ((pk, pv) :: rest)) k = dget (coerceMap rest) k := by
          rw [coerceMap_cons]
          simp [dget, h]
        rw [hstep, ih]
        simp [dget, h]

theorem coerceVal_clean (v : PyVal) :
    coerceVal v ≠ PyVal.pnone ∧ coerceVal v ≠ PyVal.recarr := by
  cases v <;> simp [coerceVal]

/-! ### Unwrapping lemmas for the reverse transform -/

theorem structUnwrapFields_wrap (m : Attrs) :
    structUnwrapFields (m.map (fun p => (p.1, PyVal.list [npCopy p.2]))) =
      Except.ok (m.map (fun p => (p.1, npCopy p.2))) := by
  induction m with
  | nil => rfl
  | cons p rest ih =>
      simp only [List.map_cons, structUnwrapFields, pyGetIdx0, ih]
      rfl

theorem cellUnwrapList_wrap (l : List String) :
    cellUnwrapList (l.map (fun s => PyVal.arr1s [s])) =
      Except.ok (l.map (fun s => PyVal.npstr s)) := by
  induction l with
  | nil => rfl
  | cons s rest ih =>
      simp only [List.map_cons, cellUnwrapList, pyGetIdx0, ih]
      rfl

/-! ### Except bind reductions -/

theorem exceptBind_ok {ε α β : Type} (a : α) (f : α → Except ε β) :
    (Except.ok a : Except ε α) >>= f = f a := rfl

theorem exceptBind_err {ε α β : Type} (e : ε) (f : α → Except ε β) :
    (Except.error e : Except ε α) >>= f = Except.error e := rfl

/-! ### Fold lemmas for pymap2mat and loadmat -/

theorem foldl_dset_fresh (l : Attrs) :
    ∀ acc : Attrs, (acc.map Prod.fst ++ l.map Prod.fst).Nodup →
      l.foldl (fun d p => dset d p.1 p.2) acc = acc ++ l := by
  induction l with
  | nil => intro acc _; simp
  | cons p rest ih =>
      intro acc h
      obtain ⟨k, v⟩ := p
      simp only [List.map_cons] at h
      have hdisj := (List.nodup_append.mp h).2.2
      have hk : k ∉ acc.map Prod.fst :=
        fun hmem => hdisj hmem (List.mem_cons_self k _)
      have h2 : ((acc ++ [(k, v)]).map Prod.fst ++ rest.map Prod.fst).Nodup := by
        simpa [List.append_assoc] using h
      simp only [List.foldl_cons]
      rw [dset_eq_append acc k v hk, ih (acc ++ [(k, v)]) h2, List.append_assoc]
      rfl

theorem lmStep_keep (data : Attrs) (p : String × PyVal)
    (h : p.1.startsWith sDunder = false) :
    lmStep data p = dset data p.1 (unpackOrRaw p.2) := by
  cases hu : unpackVar p.2 <;> simp [lmStep, h, unpackOrRaw, hu]

theorem lmStep_skip (data : Attrs) (p : String × PyVal)
    (h : p.1.startsWith sDunder = true) : lmStep data p = data := by
  simp [lmStep, h]

theorem keys_filter_notDunder (fo : Attrs) :
    (fo.filter notDunder).map Prod.fst =
      (fo.map Prod.fst).filter (fun k => !(k.startsWith sDunder)) := by
  induction fo with
  | nil => rfl
  | cons p rest ih =>
      cases hd : p.1.startsWith sDunder <;>
        simp [List.filter_cons, notDunder, hd, ih]

theorem loadmat_go (fo : Attrs) :
    ∀ acc : Attrs,
      (acc.map Prod.fst ++ (fo.filter notDunder).map Prod.fst).Nodup →
      fo.foldl lmStep acc =
        acc ++ (fo.filter notDunder).map (fun p => (p.1, unpackOrRaw p.2)) := by
  induction fo with
  | nil => intro acc _; simp
  | cons p rest ih =>
      intro acc h
      obtain ⟨k, v⟩ := p
      cases hd : k.startsWith sDunder with
      | true =>
          have hfilter : List.filter notDunder ((k, v) :: rest) = List.filter notDunder rest := by
            simp [List.filter_cons, notDunder, hd]
          rw [hfilter] at h
          simp only [List.foldl_cons, lmStep_skip acc (k, v) hd]
          rw [ih acc h, hfilter]
      | false =>
          have hfilter : List.filter notDunder ((k, v) :: rest) =
              (k, v) :: List.filter notDunder rest := by
            simp [List.filter_cons, notDunder, hd]
          rw [hfilter] at h
          simp only [List.map_cons] at h
          have hdisj := (List.nodup_append.mp h).2.2
          have hk : k ∉ acc.map Prod.fst :=
            fun hmem => hdisj hmem (List.mem_cons_self k _)
          have h2 : ((acc ++ [(k, unpackOrRaw v)]).map Prod.fst ++
              (List.filter notDunder rest).map Prod.fst).Nodup := by
            simpa [List.append_assoc] using h
          simp only [List.foldl_cons, lmStep_keep acc (k, v) hd]
          rw [dset_eq_append acc k (unpackOrRaw v) hk, ih (acc ++ [(k, unpackOrRaw v)]) h2,
            hfilter, List.append_assoc]
          rfl
/-! ### Dispatch loop lemmas for the reverse transform -/

theorem m2pInfoBranch_ok (st : Attrs) (v : PyVal) (st' : Attrs)
    (h : m2pInfoBranch st v = Except.ok st') :
    ∃ f, st' = dset st kInfo (PyVal.dict f) := by
  cases v with
  | struct fields =>
      simp only [m2pInfoBranch] at h
      cases hsf : structUnwrapFields fields with
      | error e => rw [hsf, exceptBind_err] at h; cases h
      | ok ifields =>
          rw [hsf, exceptBind_ok] at h
          exact ⟨ifields, ((Except.ok.injEq _ _).mp h).symm⟩
  | pstr s => simp [m2pInfoBranch] at h
  | npstr s => simp [m2pInfoBranch] at h
  | pyint n => simp [m2pInfoBranch] at h
  | pnone => simp [m2pInfoBranch] at h
  | recarr => simp [m2pInfoBranch] at h
  | list xs => simp [m2pInfoBranch] at h
  | dict xs => simp [m2pInfoBranch] at h
  | arr0s s => simp [m2pInfoBranch] at h
  | arr0i n => simp [m2pInfoBranch] at h
  | arr1s xs => simp [m2pInfoBranch] at h
  | arr1i xs => simp [m2pInfoBranch] at h
  | arr2i xs => simp [m2pInfoBranch] at h
  | arr3i xs => simp [m2pInfoBranch] at h
  | cell xs => simp [m2pInfoBranch] at h

theorem m2pOpsBranch_ok (st : Attrs) (v : PyVal) (st' : Attrs)
    (h : m2pOpsBranch st v = Except.ok st') :
    ∃ ops, st' = dset st kOps (PyVal.list ops) := by
  cases v with
  | cell xs =>
      simp only [m2pOpsBranch] at h
      cases hcl : cellUnwrapList xs with
      | error e => rw [hcl, exceptBind_err] at h; cases h
      | ok ops =>
          rw [hcl, exceptBind_ok] at h
          exact ⟨ops, ((Except.ok.injEq _ _).mp h).symm⟩
  | pstr s => simp [m2pOpsBranch] at h
  | npstr s => simp [m2pOpsBranch] at h
  | pyint n => simp [m2pOpsBranch] at h
  | pnone => simp [m2pOpsBranch] at h
  | recarr => simp [m2pOpsBranch] at h
  | list xs => simp [m2pOpsBranch] at h
  | dict xs => simp [m2pOpsBranch] at h
  | arr0s s => simp [m2pOpsBranch] at h
  | arr0i n => simp [m2pOpsBranch] at h
  | arr1s xs => simp [m2pOpsBranch] at h
  | arr1i xs => simp [m2pOpsBranch] at h
  | arr2i xs => simp [m2pOpsBranch] at h
  | arr3i xs => simp [m2pOpsBranch] at h
  | struct fields => simp [m2pOpsBranch] at h

theorem m2pStep_ok_shape (st : Attrs) (key : String) (v : PyVal) (st' : Attrs)
    (h : m2pStep st key v = Except.ok st') :
    ∃ κ w, st' = dset st κ w ∧ (κ = key ∨ κ = kInfo ∨ κ = kOps ∨ κ = kEn) := by
  cases hg : pyGetIdx0 v with
  | error e =>
      simp only [m2pStep] at h
      rw [hg, exceptBind_err] at h
      cases h
  | ok first =>
      simp only [m2pStep] at h
      rw [hg, exceptBind_ok] at h
      by_cases hfs : isNpStrScalar first = true
      · rw [if_pos hfs] at h
        exact ⟨key, first, ((Except.ok.injEq _ _).mp h).symm, Or.inl rfl⟩
      · rw [if_neg hfs] at h
        by_cases hki : key = kInfo
        · rw [if_pos hki] at h
          obtain ⟨f, rfl⟩ := m2pInfoBranch_ok st v st' h
          exact ⟨kInfo, .dict f, rfl, Or.inr (Or.inl rfl)⟩
        · rw [if_neg hki] at h
          by_cases hko : key = kOps
          · rw [if_pos hko] at h
            obtain ⟨ops, rfl⟩ := m2pOpsBranch_ok st v st' h
            exact ⟨kOps, .list ops, rfl, Or.inr (Or.inr (Or.inl rfl))⟩
          · rw [if_neg hko] at h
            by_cases hke : key = kE
            · rw [if_pos hke] at h
              exact ⟨kEn, v, ((Except.ok.injEq _ _).mp h).symm,
                Or.inr (Or.inr (Or.inr rfl))⟩
            · rw [if_neg hke] at h
              exact ⟨key, v, ((Except.ok.injEq _ _).mp h).symm, Or.inl rfl⟩

theorem m2pStep_preserves_map (st st' : Attrs) (key : String) (v : PyVal)
    (hk : key ≠ kMap) (h : m2pStep st key v = Except.ok st') :
    dget st' kMap = dget st kMap := by
  obtain ⟨κ, w, rfl, hκ⟩ := m2pStep_ok_shape st key v st' h
  have hκne : kMap ≠ κ := by
    rcases hκ with rfl | rfl | rfl | rfl
    · exact fun hh => hk hh.symm
    · decide
    · decide
    · decide
  exact dget_dset_ne st κ kMap w hκne

theorem m2pLoop_append (l₁ l₂ : Attrs) :
    ∀ st, m2pLoop st (l₁ ++ l₂) =
      (m2pLoop st l₁) >>= fun st1 => m2pLoop st1 l₂ := by
  induction l₁ with
  | nil => intro st; rfl
  | cons p rest ih =>
      intro st
      obtain ⟨k, v⟩ := p
      cases hs : m2pStep st k v with
      | error e => simp [m2pLoop, hs, exceptBind_err]
      | ok st1 => simp [m2pLoop, hs, exceptBind_ok, ih st1]

theorem m2pLoop_preserves_map (mhh : Attrs) :
    ∀ st, kMap ∉ mhh.map Prod.fst →
      (∃ e, m2pLoop st mhh = Except.error e) ∨
      ∃ st', m2pLoop st mhh = Except.ok st' ∧ dget st' kMap = dget st kMap := by
  induction mhh with
  | nil => intro st _; exact Or.inr ⟨st, rfl, rfl⟩
  | cons p rest ih =>
      intro st h
      obtain ⟨k, v⟩ := p
      simp only [List.map_cons, List.mem_cons] at h
      push_neg at h
      have hk : k ≠ kMap := fun hh => h.1 hh.symm
      cases hs : m2pStep st k v with
      | error e => exact Or.inl ⟨e, by simp [m2pLoop, hs, exceptBind_err]⟩
      | ok st1 =>
          have hpres := m2pStep_preserves_map st st1 k v hk hs
          rcases ih st1 h.2 with ⟨e, he⟩ | ⟨st', hst', hmap⟩
          · exact Or.inl ⟨e, by simp [m2pLoop, hs, exceptBind_ok, he]⟩
          · exact Or.inr ⟨st', by simp [m2pLoop, hs, exceptBind_ok, hst'],
              hmap.trans hpres⟩

theorem pySwapaxes12_err (v : PyVal) (h : ∀ x, v ≠ PyVal.arr3i x) :
    pySwapaxes12 v = Except.error PyErr.axisError := by
  cases v <;> first
    | rfl
    | exact absurd rfl (h _)

theorem m2pStep_badmap (st : Attrs) (v : PyVal) (hv : isSub3Arr v = true) :
    (∃ e, m2pStep st kMap v = Except.error e) ∨
    ∃ v', m2pStep st kMap v = Except.ok (dset st kMap v') ∧
      pySwapaxes12 v' = Except.error PyErr.axisError := by
  cases v with
  | arr0s s => exact Or.inl ⟨.indexError, rfl⟩
  | arr0i n => exact Or.inl ⟨.indexError, rfl⟩
  | arr1s xs =>
      cases xs with
      | nil => exact Or.inl ⟨.indexError, rfl⟩
      | cons s rest => exact Or.inr ⟨.npstr s, rfl, rfl⟩
  | arr1i xs =>
      cases xs with
      | nil => exact Or.inl ⟨.indexError, rfl⟩
      | cons n rest => exact Or.inr ⟨.arr1i (n :: rest), rfl, rfl⟩
  | arr2i xs =>
      cases xs with
      | nil => exact Or.inl ⟨.indexError, rfl⟩
      | cons r rest => exact Or.inr ⟨.arr2i (r :: rest), rfl, rfl⟩
  | pstr s => simp [isSub3Arr] at hv
  | npstr s => simp [isSub3Arr] at hv
  | pyint n => simp [isSub3Arr] at hv
  | pnone => simp [isSub3Arr] at hv
  | recarr => simp [isSub3Arr] at hv
  | list xs => simp [isSub3Arr] at hv
  | dict xs => simp [isSub3Arr] at hv
  | arr3i xs => simp [isSub3Arr] at hv
  | struct fields => simp [isSub3Arr] at hv
  | cell xs => simp [isSub3Arr] at hv

/-! ### Index lemmas for the axis permutation -/

theorem getD_map_lt {α β : Type} (l : List α) (f : α → β) (i : Nat) (d : β)
    (d' : α) (h : i < l.length) : (l.map f).getD i d = f (l.getD i d') := by
  rw [List.getD_eq_getElem _ _ (by simpa using h), List.getElem_map,
    List.getD_eq_getElem _ _ h]

theorem getD_range_map {β : Type} (f : Nat → β) (n i : Nat) (d : β)
    (h : i < n) : ((List.range n).map f).getD i d = f i := by
  rw [getD_map_lt _ f i d 0 (by simpa using h),
    List.getD_eq_getElem _ _ (by simpa using h), List.getElem_range]

theorem col2_getD (m : List (List Int)) (c j : Nat) (hj : j < m.length) :
    (col2 m c).getD j 0 = (m.getD j []).getD c 0 :=
  getD_map_lt m _ j 0 [] hj

theorem col2_length (m : List (List Int)) (c : Nat) : (col2 m c).length = m.length := by
  simp [col2]

theorem t2_getD (m : List (List Int)) (e : Nat) (he : e < (m.headD []).length) :
    (t2 m).getD e [] = col2 m e :=
  getD_range_map _ _ e [] he

theorem t2_length (m : List (List Int)) : (t2 m).length = (m.headD []).length := by
  simp [t2]

theorem swap12_getD (x : List (List (List Int))) (i : Nat) (hi : i < x.length) :
    (swap12 x).getD i [] = t2 (x.getD i []) :=
  getD_map_lt x t2 i [] [] hi

theorem swap12_length (x : List (List (List Int))) : (swap12 x).length = x.length := by
  simp [swap12]

theorem swap01_getD (x : List (List (List Int))) (e : Nat)
    (he : e < ((x.headD []).length)) :
    (swap01 x).getD e [] = x.map (fun m => m.getD e []) :=
  getD_range_map _ _ e [] he

theorem swap01_length (x : List (List (List Int))) :
    (swap01 x).length = (x.headD []).length := by
  simp [swap01]

theorem rect3_head_row_length (x : List (List (List Int))) (I J E : Nat)
    (hR : Rect3 x I J E) (m : List (List Int)) (hm : m ∈ x) (hJ : 0 < J) :
    (m.headD []).length = E := by
  obtain ⟨hJlen, hrows⟩ := hR.2 m hm
  cases m with
  | nil => simp at hJlen; omega
  | cons r rs => exact hrows r (List.mem_cons_self r rs)

theorem swap12_head_length (x : List (List (List Int))) (I J E : Nat)
    (hR : Rect3 x I J E) (hI : 0 < I) (hJ : 0 < J) :
    ((swap12 x).headD []).length = E := by
  cases x with
  | nil => rw [hR.1.symm] at hI; simp at hI
  | cons m ms =>
      have : (swap12 (m :: ms)).headD [] = t2 m := by simp [swap12]
      rw [this, t2_length]
      exact rect3_head_row_length (m :: ms) I J E hR m (List.mem_cons_self m ms) hJ

theorem swap_get3 (x : List (List (List Int))) (I J E : Nat)
    (hR : Rect3 x I J E) (e i j : Nat) (he : e < E) (hi : i < I) (hj : j < J) :
    get3 (swap01 (swap12 x)) e i j = get3 x i j e := by
  have hI : 0 < I := Nat.lt_of_le_of_lt (Nat.zero_le i) hi
  have hJ : 0 < J := Nat.lt_of_le_of_lt (Nat.zero_le j) hj
  have hx : x.length = I := hR.1
  have hhead : ((swap12 x).headD []).length = E := swap12_head_length x I J E hR hI hJ
  have hxi_lt : i < x.length := by rw [hx]; exact hi
  have hxi_mem : x.getD i [] ∈ x := by
    rw [List.getD_eq_getElem x [] hxi_lt]
    exact List.getElem_mem hxi_lt
  obtain ⟨hxiJ, hxirows⟩ := hR.2 (x.getD i []) hxi_mem
  have hxihead : ((x.getD i []).headD []).length = E :=
    rect3_head_row_length x I J E hR (x.getD i []) hxi_mem hJ
  show ((((swap01 (swap12 x)).getD e []).getD i []).getD j 0) = get3 x i j e
  rw [swap01_getD (swap12 x) e (by rw [hhead]; exact he)]
  rw [getD_map_lt (swap12 x) (fun m => m.getD e []) i [] []
    (by rw [swap12_length, hx]; exact hi)]
  rw [swap12_getD x i hxi_lt]
  rw [t2_getD (x.getD i []) e (by rw [hxihead]; exact he)]
  rw [col2_getD (x.getD i []) e j (by rw [hxiJ]; exact hj)]
  rfl

theorem swap_shape (x : List (List (List Int))) (I J E : Nat)
    (hR : Rect3 x I J E) (hI : 0 < I) (hJ : 0 < J) :
    Rect3 (swap01 (swap12 x)) E I J := by
  have hx : x.length = I := hR.1
  have hhead : ((swap12 x).headD []).length = E := swap12_head_length x I J E hR hI hJ
  constructor
  · rw [swap01_length, hhead]
  · intro m hm
    rw [swap01] at hm
    obtain ⟨e, he_mem, rfl⟩ := List.mem_map.mp hm
    constructor
    · simp [swap12_length, hx]
    · intro r hr
      obtain ⟨b, hb_mem, rfl⟩ := List.mem_map.mp hr
      rw [swap12] at hb_mem
      obtain ⟨xi, hxi_mem, rfl⟩ := List.mem_map.mp hb_mem
      have he_lt : e < E := by
        have := List.mem_range.mp he_mem
        rwa [hhead] at this
      have hxihead : ((xi.headD []).length) = E :=
        rect3_head_row_length x I J E hR xi hxi_mem hJ
      rw [t2_getD xi e (by rw [hxihead]; exact he_lt), col2_length]
      exact (hR.2 xi hxi_mem).1

/-! ### Core evaluation lemmas for nvl2pymap -/

theorem nvl2pymap_ops_lookup (self : Attrs) (l : List PyVal) (nvl : Nvl)
    (hops : dget self kOps = some (PyVal.list l)) :
    dget (dset (dset (dset self kMap (npCopy nvl.data)) kEn (npCopy nvl.en))
      kAve (npCopy nvl.averageSpectrum)) kOps = some (PyVal.list l) := by
  rw [dget_dset_ne _ _ _ _ (by decide), dget_dset_ne _ _ _ _ (by decide),
    dget_dset_ne _ _ _ _ (by decide)]
  exact hops

theorem nvl2pymap_missing (self : Attrs) (l : List PyVal) (nvl : Nvl)
    (hops : dget self kOps = some (PyVal.list l))
    (hfile : dget nvl.info kFILENAME = none) :
    nvl2pymap self nvl =
      Except.error (PyErr.keyError kFILENAME, nvl2pymapPartial self l nvl) := by
  have h1 := nvl2pymap_ops_lookup self l nvl hops
  have h2 : dget (coerceMap nvl.info) kFILENAME = none := by
    rw [dget_coerceMap, hfile]; rfl
  rw [nvl2pymap, h1, h2]
  rfl

theorem nvl2pymap_found (self : Attrs) (l : List PyVal) (nvl : Nvl) (w : PyVal)
    (hops : dget self kOps = some (PyVal.list l))
    (hfile : dget nvl.info kFILENAME = some w) :
    nvl2pymap self nvl =
      Except.ok (dset (dset (nvl2pymapPartial self l nvl)
        kName (coerceVal w)) kVar (coerceVal w)) := by
  have h1 := nvl2pymap_ops_lookup self l nvl hops
  have h2 : dget (coerceMap nvl.info) kFILENAME = some (coerceVal w) := by
    rw [dget_coerceMap, hfile]; rfl
  rw [nvl2pymap, h1, h2]
  rfl

/-! ### Claim C2 -/

/-- Claim C2: for a record whose info mapping has no FILENAME key, the
forward transform nvl2pymap fails, the enclosing nvl2mat conversion fails
and writes no output file, and the failure reaching the caller is the
specific missing-FILENAME condition, KeyError carrying the key FILENAME,
fully determined by the missing key rather than an arbitrary error. -/
theorem missing_filename_failure (nvl : Nvl)
    (hfile : dget nvl.info kFILENAME = none) :
    (nvl2mat nvl).1 = [] ∧
    (∃ st, nvl2pymap newPymap nvl = Except.error (PyErr.keyError kFILENAME, st)) ∧
    ∃ st, (nvl2mat nvl).2 = Except.error (PyErr.keyError kFILENAME, st) := by
  have hops : dget newPymap kOps = some (PyVal.list []) := rfl
  have hmain := nvl2pymap_missing newPymap [] nvl hops hfile
  refine ⟨?_, ⟨nvl2pymapPartial newPymap [] nvl, hmain⟩,
    ⟨nvl2pymapPartial newPymap [] nvl, ?_⟩⟩
  · rw [nvl2mat, hmain]
  · rw [nvl2mat, hmain]

/-- Witness for C2 at a concrete NVL record with no FILENAME in info. -/
theorem missing_filename_failure_witness :
    (nvl2mat nvlB).1 = [] ∧
    (∃ st, nvl2pymap newPymap nvlB = Except.error (PyErr.keyError kFILENAME, st)) ∧
    ∃ st, (nvl2mat nvlB).2 = Except.error (PyErr.keyError kFILENAME, st) :=
  missing_filename_failure nvlB rfl

/-! ### Claim C4 -/

/-- Claim C4: the coercion step over a metadata mapping terminates (it is a
total function of the model), keeps exactly the same keys in the same
order, replaces every None entry by the string placeholder, replaces every
recarray entry by the deletion notice, leaves every other value unchanged,
and leaves no None or recarray entry in the result. -/
theorem coercion_totality (m : Attrs) :
    (coerceMap m).map Prod.fst = m.map Prod.fst ∧
    (∀ k v, (k, v) ∈ m →
      (v = PyVal.pnone → (k, PyVal.pstr sNoValue) ∈ coerceMap m) ∧
      (v = PyVal.recarr → (k, PyVal.pstr sRecarrayDeleted) ∈ coerceMap m) ∧
      (v ≠ PyVal.pnone → v ≠ PyVal.recarr → (k, v) ∈ coerceMap m)) ∧
    ∀ k v, (k, v) ∈ coerceMap m → v ≠ PyVal.pnone ∧ v ≠ PyVal.recarr := by
  refine ⟨coerceMap_keys m, ?_, ?_⟩
  · intro k v hm
    have hmem : (k, coerceVal v) ∈ coerceMap m := by
      rw [coerceMap]
      exact List.mem_map.mpr ⟨(k, v), hm, rfl⟩
    refine ⟨?_, ?_, ?_⟩
    · rintro rfl
      simpa [coerceVal] using hmem
    · rintro rfl
      simpa [coerceVal] using hmem
    · intro h1 h2
      have hfix : coerceVal v = v := by
        cases v <;> simp_all [coerceVal]
      rwa [hfix] at hmem
  · intro k v hm
    rw [coerceMap] at hm
    obtain ⟨p, _, heq⟩ := List.mem_map.mp hm
    have hv : coerceVal p.2 = v := congrArg Prod.snd heq
    rw [← hv]
    exact coerceVal_clean p.2

/-- Witness for C4 at a mapping with a None, a recarray and a string
entry. -/
theorem coercion_totality_witness :
    ("a", PyVal.pstr sNoValue) ∈
      coerceMap [("a", PyVal.pnone), ("b", PyVal.recarr), ("c", PyVal.npstr "x")] :=
  ((coercion_totality [("a", PyVal.pnone), ("b", PyVal.recarr),
      ("c", PyVal.npstr "x")]).2.1 "a" PyVal.pnone (by simp)).1 rfl

/-! ### Claim C8 -/

/-- Claim C8: with a well-formed info mapping containing FILENAME, the
forward transform nvl2pymap succeeds and its ops list is the old ops list
with exactly one new entry appended, the transform name nvl2pymap. -/
theorem ops_monotonicity (self : Attrs) (l : List PyVal) (nvl : Nvl) (w : PyVal)
    (hops : dget self kOps = some (PyVal.list l))
    (hfile : dget nvl.info kFILENAME = some w) :
    ∃ st', nvl2pymap self nvl = Except.ok st' ∧
      dget st' kOps = some (PyVal.list (l ++ [PyVal.pstr sNvl2pymap])) ∧
      (l ++ [PyVal.pstr sNvl2pymap]).length = l.length + 1 ∧
      (l ++ [PyVal.pstr sNvl2pymap]).getLast? = some (PyVal.pstr sNvl2pymap) := by
  refine ⟨_, nvl2pymap_found self l nvl w hops hfile, ?_, by simp,
    List.getLast?_concat _⟩
  simp [nvl2pymapPartial, dget_dset_self, dget_dset_ne, kMap, kEn, kAve, kOps,
    kInfo, kHeader, kCoordType, kName, kVar]

/-- Witness for C8 at a concrete record and NVL input. -/
theorem ops_monotonicity_witness :
    ∃ st', nvl2pymap newPymap nvlA = Except.ok st' ∧
      dget st' kOps = some (PyVal.list ([] ++ [PyVal.pstr sNvl2pymap])) ∧
      (([] : List PyVal) ++ [PyVal.pstr sNvl2pymap]).length =
        ([] : List PyVal).length + 1 ∧
      (([] : List PyVal) ++ [PyVal.pstr sNvl2pymap]).getLast? =
        some (PyVal.pstr sNvl2pymap) :=
  ops_monotonicity newPymap [] nvlA (PyVal.npstr "f") rfl rfl

/-! ### Claim C9 -/

/-- Claim C9: on a record whose info mapping lacks FILENAME, nvl2pymap
raises KeyError only after it has already assigned the map, en, ave, info,
header and coord_type attributes and appended nvl2pymap to the ops list;
the in-memory object carried by the error is partially populated, with
name and var still untouched. -/
theorem missing_filename_partial_state (self : Attrs) (l : List PyVal) (nvl : Nvl)
    (hops : dget self kOps = some (PyVal.list l))
    (hfile : dget nvl.info kFILENAME = none) :
    ∃ st, nvl2pymap self nvl = Except.error (PyErr.keyError kFILENAME, st) ∧
      dget st kMap = some (npCopy nvl.data) ∧
      dget st kEn = some (npCopy nvl.en) ∧
      dget st kAve = some (npCopy nvl.averageSpectrum) ∧
      dget st kOps = some (PyVal.list (l ++ [PyVal.pstr sNvl2pymap])) ∧
      dget st kInfo = some (PyVal.dict (coerceMap nvl.info)) ∧
      dget st kHeader = some (PyVal.dict (coerceMap nvl.header)) ∧
      dget st kCoordType = some (PyVal.pstr sR) ∧
      dget st kName = dget self kName ∧
      dget st kVar = dget self kVar := by
  refine ⟨_, nvl2pymap_missing self l nvl hops hfile,
    ?_, ?_, ?_, ?_, ?_, ?_, ?_, ?_, ?_⟩ <;>
    simp [nvl2pymapPartial, dget_dset_self, dget_dset_ne, kMap, kEn, kAve, kOps,
      kInfo, kHeader, kCoordType, kName, kVar]

/-- Witness for C9 at a concrete record and NVL input without FILENAME. -/
theorem missing_filename_partial_state_witness :
    ∃ st, nvl2pymap newPymap nvlB = Except.error (PyErr.keyError kFILENAME, st) ∧
      dget st kMap = some (npCopy nvlB.data) ∧
      dget st kEn = some (npCopy nvlB.en) ∧
      dget st kAve = some (npCopy nvlB.averageSpectrum) ∧
      dget st kOps = some (PyVal.list ([] ++ [PyVal.pstr sNvl2pymap])) ∧
      dget st kInfo = some (PyVal.dict (coerceMap nvlB.info)) ∧
      dget st kHeader = some (PyVal.dict (coerceMap nvlB.header)) ∧
      dget st kCoordType = some (PyVal.pstr sR) ∧
      dget st kName = dget newPymap kName ∧
      dget st kVar = dget newPymap kVar :=
  missing_filename_partial_state newPymap [] nvlB rfl rfl

/-! ### Claim C5 -/

/-- Claim C5: format_mat_struct yields a (1,1) structured container whose
field names are exactly the keys of the mapping in order, each field
holding the one-element list wrapper around a copy of the value; and
format_mat_cell yields a (1,N) container whose i-th cell is the one-element
array wrapper around a copy of the i-th element, preserving positional
order. -/
theorem formatters_shape_order (M : Attrs) (S : List PyVal)
    (hM : (M.map Prod.fst).Nodup) :
    (∃ L, format_mat_struct M = PyVal.struct L ∧
      L.map Prod.fst = M.map Prod.fst ∧
      ∀ k v, (k, v) ∈ M → (k, PyVal.list [npCopy v]) ∈ L) ∧
    npShape (format_mat_struct M) = [1, 1] ∧
    (∃ C, format_mat_cell S = PyVal.cell C ∧
      C.length = S.length ∧
      ∀ i, i < S.length →
        C[i]? = (S[i]?).map (fun v => npArrayWrap1 (npCopy v))) ∧
    npShape (format_mat_cell S) = [1, S.length] := by
  refine ⟨⟨_, rfl, ?_, ?_⟩, rfl, ⟨_, rfl, by simp [format_mat_cell], ?_⟩,
    by simp [format_mat_cell, npShape]⟩
  · induction M with
    | nil => rfl
    | cons p rest ih => simp_all
  · intro k v hm
    exact List.mem_map.mpr ⟨(k, v), hm, rfl⟩
  · intro i _
    exact List.getElem?_map _ _ _

/-- Witness for C5 at a concrete mapping and sequence. -/
theorem formatters_shape_order_witness :
    (∃ L, format_mat_struct [("a", PyVal.npstr "x"), ("b", PyVal.arr1i [1])] =
        PyVal.struct L ∧
      L.map Prod.fst =
        ([("a", PyVal.npstr "x"), ("b", PyVal.arr1i [1])] : Attrs).map Prod.fst ∧
      ∀ k v, (k, v) ∈ ([("a", PyVal.npstr "x"), ("b", PyVal.arr1i [1])] : Attrs) →
        (k, PyVal.list [npCopy v]) ∈ L) ∧
    npShape (format_mat_struct [("a", PyVal.npstr "x"), ("b", PyVal.arr1i [1])]) =
      [1, 1] ∧
    (∃ C, format_mat_cell [PyVal.pstr "p", PyVal.pstr "q"] = PyVal.cell C ∧
      C.length = ([PyVal.pstr "p", PyVal.pstr "q"] : List PyVal).length ∧
      ∀ i, i < ([PyVal.pstr "p", PyVal.pstr "q"] : List PyVal).length →
        C[i]? = (([PyVal.pstr "p", PyVal.pstr "q"] : List PyVal)[i]?).map
          (fun v => npArrayWrap1 (npCopy v))) ∧
    npShape (format_mat_cell [PyVal.pstr "p", PyVal.pstr "q"]) = [1, 2] :=
  formatters_shape_order [("a", PyVal.npstr "x"), ("b", PyVal.arr1i [1])]
    [PyVal.pstr "p", PyVal.pstr "q"] (by decide)

/-! ### Claim C7 -/

/-- Claim C7: loadmat keeps exactly the variables whose names do not start
with the double underscore prefix; a kept struct-like variable is unpacked
into a nested dictionary, any other kept variable is stored raw (the
fallback of the bare except, so the unpack attempt never aborts the load);
skipped reserved names do not appear in the result. -/
theorem loadmat_contract (fo : Attrs) (hN : (fo.map Prod.fst).Nodup) :
    loadmat fo = (fo.filter notDunder).map (fun p => (p.1, unpackOrRaw p.2)) ∧
    (loadmat fo).map Prod.fst =
      (fo.map Prod.fst).filter (fun k => !(k.startsWith sDunder)) ∧
    (∀ k v, (k, v) ∈ fo → k.startsWith sDunder = false →
      (∀ fields, v = PyVal.struct fields → (k, PyVal.dict fields) ∈ loadmat fo) ∧
      (unpackVar v = none → (k, v) ∈ loadmat fo)) ∧
    ∀ k, k.startsWith sDunder = true → k ∉ (loadmat fo).map Prod.fst := by
  have hfK : ((fo.filter notDunder).map Prod.fst).Nodup := by
    rw [keys_filter_notDunder]
    exact hN.filter _
  have hmain : loadmat fo =
      (fo.filter notDunder).map (fun p => (p.1, unpackOrRaw p.2)) := by
    rw [loadmat]
    have := loadmat_go fo [] (by simpa using hfK)
    simpa using this
  have hkeys : (loadmat fo).map Prod.fst =
      (fo.map Prod.fst).filter (fun k => !(k.startsWith sDunder)) := by
    rw [hmain, ← keys_filter_notDunder, List.map_map]
    rfl
  refine ⟨hmain, hkeys, ?_, ?_⟩
  · intro k v hm hks
    have hmem : (k, unpackOrRaw v) ∈ loadmat fo := by
      rw [hmain]
      refine List.mem_map.mpr ⟨(k, v), ?_, rfl⟩
      exact List.mem_filter.mpr ⟨hm, by simp [notDunder, hks]⟩
    constructor
    · rintro fields rfl
      simpa [unpackOrRaw, unpackVar] using hmem
    · intro hu
      simpa [unpackOrRaw, hu] using hmem
  · intro k hks hkmem
    rw [hkeys] at hkmem
    have := List.of_mem_filter hkmem
    rw [hks] at this
    simp at this

/-- Witness for C7 at the container of the specification example, one
reserved variable and one raw array variable, plus a struct variable. -/
theorem loadmat_contract_witness :
    loadmat [("__header__", PyVal.npstr "h"), ("temperature", PyVal.arr1i [1, 2, 3]),
        ("stm", PyVal.struct [("a", PyVal.arr0i 5)])] =
      (([("__header__", PyVal.npstr "h"), ("temperature", PyVal.arr1i [1, 2, 3]),
        ("stm", PyVal.struct [("a", PyVal.arr0i 5)])] : Attrs).filter
          notDunder).map (fun p => (p.1, unpackOrRaw p.2)) ∧
    (loadmat [("__header__", PyVal.npstr "h"), ("temperature", PyVal.arr1i [1, 2, 3]),
        ("stm", PyVal.struct [("a", PyVal.arr0i 5)])]).map Prod.fst =
      (([("__header__", PyVal.npstr "h"), ("temperature", PyVal.arr1i [1, 2, 3]),
        ("stm", PyVal.struct [("a", PyVal.arr0i 5)])] : Attrs).map Prod.fst).filter
        (fun k => !(k.startsWith sDunder)) ∧
    (∀ k v, (k, v) ∈ ([("__header__", PyVal.npstr "h"),
        ("temperature", PyVal.arr1i [1, 2, 3]),
        ("stm", PyVal.struct [("a", PyVal.arr0i 5)])] : Attrs) →
      k.startsWith sDunder = false →
      (∀ fields, v = PyVal.struct fields →
        (k, PyVal.dict fields) ∈ loadmat [("__header__", PyVal.npstr "h"),
          ("temperature", PyVal.arr1i [1, 2, 3]),
          ("stm", PyVal.struct [("a", PyVal.arr0i 5)])]) ∧
      (unpackVar v = none →
        (k, v) ∈ loadmat [("__header__", PyVal.npstr "h"),
          ("temperature", PyVal.arr1i [1, 2, 3]),
          ("stm", PyVal.struct [("a", PyVal.arr0i 5)])])) ∧
    ∀ k, k.startsWith sDunder = true →
      k ∉ (loadmat [("__header__", PyVal.npstr "h"),
        ("temperature", PyVal.arr1i [1, 2, 3]),
        ("stm", PyVal.struct [("a", PyVal.arr0i 5)])]).map Prod.fst :=
  loadmat_contract [("__header__", PyVal.npstr "h"),
    ("temperature", PyVal.arr1i [1, 2, 3]),
    ("stm", PyVal.struct [("a", PyVal.arr0i 5)])] (by decide)

/-! ### Claim C10 -/

theorem mat2pymap_after_loop (self mhh st' : Attrs)
    (h : m2pLoop self mhh = Except.ok st') :
    mat2pymap self mhh =
      (match dget st' kMap with
        | some m => Except.ok m
        | none => Except.error (PyErr.attributeError kMap)) >>= fun m =>
        pySwapaxes12 m >>= fun m1 => pySwapaxes01 m1 >>= fun m2 =>
        Except.ok (dset st' kMap m2) := by
  simp only [mat2pymap]
  rw [h, exceptBind_ok]
  cases dget st' kMap with
  | none => rfl
  | some m => rfl

/-- Counterexample to claim C10 as stated: the mapping whose map entry is
the empty 1-d array (fewer than three dimensions) makes mat2pymap raise
IndexError inside the per-field string test mhh[key][0], before the axis
swap is ever reached - not the AxisError of the swap step and not the
AttributeError of a missing map attribute. -/
theorem mat2pymap_sub3dim_counterexample :
    mat2pymap newPymap [(kMap, PyVal.arr1i [])] = Except.error PyErr.indexError ∧
    PyErr.indexError ≠ PyErr.axisError ∧
    PyErr.indexError ≠ PyErr.attributeError kMap :=
  ⟨rfl, by decide, by decide⟩

/-- Claim C10 (amended): for an input mapping whose map entry is an array of
fewer than three dimensions, or which has no map entry, mat2pymap raises an
error instead of returning a record; the error is the swap-step AxisError
or the missing-attribute AttributeError whenever the dispatch loop
completes, but 0-d or empty entries already raise IndexError inside the
string test of the loop. -/
theorem mat2pymap_sub3dim_fails (mhh : Attrs) (hN : (mhh.map Prod.fst).Nodup)
    (hcond : dget mhh kMap = none ∨
      ∃ v, dget mhh kMap = some v ∧ isSub3Arr v = true) :
    ∃ e, mat2pymap newPymap mhh = Except.error e := by
  rcases hcond with habsent | ⟨v, hv, hsub⟩
  · have hnotin : kMap ∉ mhh.map Prod.fst := (dget_eq_none mhh kMap).mp habsent
    rcases m2pLoop_preserves_map mhh newPymap hnotin with ⟨e, he⟩ | ⟨st', hst', hmapeq⟩
    · exact ⟨e, by simp only [mat2pymap]; rw [he, exceptBind_err]⟩
    · have hnone : dget st' kMap = none := by
        rw [hmapeq]; rfl
      refine ⟨PyErr.attributeError kMap, ?_⟩
      rw [mat2pymap_after_loop newPymap mhh st' hst', hnone, exceptBind_err]
  · obtain ⟨pre, post, rfl, hpre⟩ := dget_split mhh kMap v hv
    have hsplitkeys : (pre.map Prod.fst ++ kMap :: post.map Prod.fst).Nodup := by
      simpa using hN
    have hpost : kMap ∉ post.map Prod.fst :=
      (List.nodup_cons.mp (List.nodup_append.mp hsplitkeys).2.1).1
    rcases m2pLoop_preserves_map pre newPymap hpre with ⟨e, he⟩ | ⟨st1, hst1, _⟩
    · refine ⟨e, ?_⟩
      simp only [mat2pymap]
      rw [m2pLoop_append, he, exceptBind_err, exceptBind_err]
    · rcases m2pStep_badmap st1 v hsub with ⟨e, he2⟩ | ⟨v', hok, hswapfail⟩
      · refine ⟨e, ?_⟩
        simp only [mat2pymap]
        rw [m2pLoop_append, hst1, exceptBind_ok]
        show (m2pLoop st1 ((kMap, v) :: post) >>= _) = _
        simp only [m2pLoop]
        rw [he2, exceptBind_err, exceptBind_err]
      · have hst2map : dget (dset st1 kMap v') kMap = some v' := dget_dset_self _ _ _
        rcases m2pLoop_preserves_map post (dset st1 kMap v') hpost with
          ⟨e, he3⟩ | ⟨st3, hst3, hmap3⟩
        · refine ⟨e, ?_⟩
          simp only [mat2pymap]
          rw [m2pLoop_append, hst1, exceptBind_ok]
          show (m2pLoop st1 ((kMap, v) :: post) >>= _) = _
          simp only [m2pLoop]
          rw [hok, exceptBind_ok, he3, exceptBind_err]
        · have hloopfull : m2pLoop newPymap (pre ++ (kMap, v) :: post) =
              Except.ok st3 := by
            rw [m2pLoop_append, hst1, exceptBind_ok]
            simp only [m2pLoop]
            rw [hok, exceptBind_ok, hst3]
          refine ⟨PyErr.axisError, ?_⟩
          rw [mat2pymap_after_loop newPymap _ st3 hloopfull, hmap3.trans hst2map]
          simp only [exceptBind_ok]
          rw [hswapfail, exceptBind_err]

/-- Witness for the amended C10 at a concrete mapping with a 2-d map
entry. -/
theorem mat2pymap_sub3dim_fails_witness :
    ∃ e, mat2pymap newPymap [(kMap, PyVal.arr2i [[1, 2], [3, 4]])] =
      Except.error e :=
  mat2pymap_sub3dim_fails [(kMap, PyVal.arr2i [[1, 2], [3, 4]])] (by decide)
    (Or.inr ⟨PyVal.arr2i [[1, 2], [3, 4]], rfl, rfl⟩)

/-! ### Claim C3 -/

/-- Claim C3: a 3-dimensional array of shape (I, J, E) stored under the map
key is turned by mat2pymap into a map attribute of shape (E, I, J), and
element (e, i, j) of the output equals element (i, j, e) of the input for
all valid indices; the resulting record is the fresh pymap with its ops
list and the permuted map. -/
theorem axis_permutation_determinism (A : List (List (List Int))) (I J E : Nat)
    (hR : Rect3 A I J E) (hI : 0 < I) (hJ : 0 < J) :
    mat2pymap newPymap [(kMap, PyVal.arr3i A)] =
      Except.ok [(kOps, PyVal.list []), (kMap, PyVal.arr3i (swap01 (swap12 A)))] ∧
    Rect3 (swap01 (swap12 A)) E I J ∧
    ∀ e i j, e < E → i < I → j < J →
      get3 (swap01 (swap12 A)) e i j = get3 A i j e := by
  refine ⟨?_, swap_shape A I J E hR hI hJ,
    fun e i j he hi hj => swap_get3 A I J E hR e i j he hi hj⟩
  obtain ⟨a, as, rfl⟩ : ∃ a as, A = a :: as := by
    cases A with
    | nil =>
        rw [← hR.1] at hI
        simp at hI
    | cons a as => exact ⟨a, as, rfl⟩
  rfl

/-- Witness for C3 at a concrete (1, 2, 3) array. -/
theorem axis_permutation_determinism_witness :
    mat2pymap newPymap [(kMap, PyVal.arr3i [[[1, 2, 3], [4, 5, 6]]])] =
      Except.ok [(kOps, PyVal.list []),
        (kMap, PyVal.arr3i (swap01 (swap12 [[[1, 2, 3], [4, 5, 6]]])))] ∧
    Rect3 (swap01 (swap12 [[[1, 2, 3], [4, 5, 6]]])) 3 1 2 ∧
    ∀ e i j, e < 3 → i < 1 → j < 2 →
      get3 (swap01 (swap12 [[[1, 2, 3], [4, 5, 6]]])) e i j =
        get3 [[[1, 2, 3], [4, 5, 6]]] i j e :=
  axis_permutation_determinism [[[1, 2, 3], [4, 5, 6]]] 1 2 3
    ⟨by decide, by decide⟩ (by decide) (by decide)

/-! ### Claim C6 -/

theorem p2mEmit_raw (k : String) (v : PyVal) (h1 : ∀ s, v ≠ PyVal.npstr s)
    (h2 : ∀ d, v ≠ PyVal.dict d) (h3 : ∀ l, v ≠ PyVal.list l) :
    p2mEmit (k, v) = if k = kEn then (kE, npCopy v) else (k, npCopy v) := by
  cases v <;> first
    | rfl
    | exact absurd rfl (h1 _)
    | exact absurd rfl (h2 _)
    | exact absurd rfl (h3 _)

/-- Counterexample to claim C6 as stated: pymap2mat wraps an np.str_ field
in a ONE-dimensional one-element string array, not a 2-D container, and a
plain Python str field (coord_type as nvl2pymap sets it) is not wrapped as
a string container at all - it falls through to the np.copy branch and
becomes a 0-d array. -/
theorem pymap2mat_string_counterexample :
    pymap2mat [(kName, PyVal.npstr "A"), (kCoordType, PyVal.pstr sR)] =
      [(kName, PyVal.arr1s ["A"]), (kCoordType, PyVal.arr0s sR)] ∧
    npNdim (PyVal.arr1s ["A"]) = 1 ∧
    npNdim (PyVal.arr1s ["A"]) ≠ 2 ∧
    npNdim (PyVal.arr0s sR) = 0 :=
  ⟨rfl, rfl, by decide, rfl⟩

/-- Claim C6 (amended): pymap2mat emits, per field and in order, np.str_
values wrapped as one-element 1-D string arrays (plain str values instead
fall through to the copy branch), dictionaries through format_mat_struct,
lists through format_mat_cell, the en field renamed to the key e with a
copied value, and every other field np.copied under its own key. -/
theorem pymap2mat_dispatch (pydct : Attrs)
    (hN : (pydct.map (fun p => (p2mEmit p).1)).Nodup) :
    pymap2mat pydct = pydct.map p2mEmit ∧
    ∀ k v, (k, v) ∈ pydct →
      (∀ s, v = PyVal.npstr s →
        (k, PyVal.arr1s [s]) ∈ pymap2mat pydct ∧ npNdim (PyVal.arr1s [s]) = 1) ∧
      (∀ d, v = PyVal.dict d → (k, format_mat_struct d) ∈ pymap2mat pydct) ∧
      (∀ l, v = PyVal.list l → (k, format_mat_cell l) ∈ pymap2mat pydct) ∧
      ((∀ s, v ≠ PyVal.npstr s) → (∀ d, v ≠ PyVal.dict d) →
        (∀ l, v ≠ PyVal.list l) →
        (k = kEn → (kE, npCopy v) ∈ pymap2mat pydct) ∧
        (k ≠ kEn → (k, npCopy v) ∈ pymap2mat pydct)) := by
  have hmain : pymap2mat pydct = pydct.map p2mEmit := by
    rw [pymap2mat, ← List.foldl_map p2mEmit (fun d p => dset d p.1 p.2) pydct []]
    apply foldl_dset_fresh
    simpa [List.map_map, Function.comp] using hN
  refine ⟨hmain, ?_⟩
  intro k v hm
  have hemit : p2mEmit (k, v) ∈ pymap2mat pydct := by
    rw [hmain]
    exact List.mem_map.mpr ⟨(k, v), hm, rfl⟩
  refine ⟨?_, ?_, ?_, ?_⟩
  · rintro s rfl
    exact ⟨hemit, rfl⟩
  · rintro d rfl
    exact hemit
  · rintro l rfl
    exact hemit
  · intro h1 h2 h3
    rw [p2mEmit_raw k v h1 h2 h3] at hemit
    constructor
    · rintro rfl
      rwa [if_pos rfl] at hemit
    · intro hke
      rwa [if_neg hke] at hemit

/-- Witness for the amended C6 at a concrete record with an en field and an
np.str_ field. -/
theorem pymap2mat_dispatch_witness :
    pymap2mat [(kEn, PyVal.arr1i [7]), (kName, PyVal.npstr "A")] =
      ([(kEn, PyVal.arr1i [7]), (kName, PyVal.npstr "A")] : Attrs).map p2mEmit :=
  (pymap2mat_dispatch [(kEn, PyVal.arr1i [7]), (kName, PyVal.npstr "A")]
    (by decide)).1

/-! ### Claim C1 -/

theorem npCopy_arr3i (x : List (List (List Int))) :
    npCopy (PyVal.arr3i x) = PyVal.arr3i x := rfl

theorem npCopy_arr1i (x : List Int) :
    npCopy (PyVal.arr1i x) = PyVal.arr1i x := rfl

theorem cellUnwrapList_of_arr1s (g : String → PyVal)
    (hg : ∀ s, g s = PyVal.arr1s [s]) (l : List String) :
    cellUnwrapList (l.map g) = Except.ok (l.map PyVal.npstr) := by
  induction l with
  | nil => rfl
  | cons s rest ih =>
      simp only [List.map_cons, cellUnwrapList, hg, pyGetIdx0, ih]
      rfl

/-- Counterexample to claim C1 as stated: take the canonical record that
nvl2pymap itself builds from a well-formed NVL input (info contains
FILENAME); its coord_type attribute is the plain Python string r, which
pymap2mat np.copies into a 0-d string array, and the reverse transform
mat2pymap then raises IndexError at the string test mhh[key][0] instead of
returning any record, so the round trip restores none of the claimed
fields on this record. -/
theorem roundtrip_counterexample :
    ∃ d, nvl2pymap newPymap nvlA = Except.ok d ∧
      mat2pymap newPymap (pymap2mat d) = Except.error PyErr.indexError :=
  ⟨_, rfl, rfl⟩

/-- Claim C1 (amended): for a canonical record whose string-valued
attributes are numpy string scalars and whose map, en and ave arrays are
nonempty, composing pymap2mat with mat2pymap yields a record that restores
en, ave, coord_type, name and var exactly, restores ops with the same
string contents (as numpy strings), yields the map array with the fixed
axis permutation applied exactly once (pymap2mat itself applies no
permutation, so the net effect of the round trip is one application of the
move-last-axis-to-front permutation), rebuilds info with each value
np.copied - so every string-valued info entry not replaced by a
placeholder keeps its string content, now as a 0-d string array - and
leaves header in its struct form.  Records with a plain Python str
attribute, as nvl2pymap produces, instead raise IndexError (see the
counterexample). -/
theorem roundtrip_amended (R : CanonRecord) (hmap : R.map ≠ [])
    (hen : R.en ≠ []) (hAve : R.ave ≠ []) :
    mat2pymap newPymap (pymap2mat (toAttrs R)) =
      Except.ok [(kOps, PyVal.list (R.ops.map PyVal.npstr)),
        (kMap, PyVal.arr3i (swap01 (swap12 R.map))),
        (kEn, PyVal.arr1i R.en),
        (kAve, PyVal.arr1i R.ave),
        (kInfo, PyVal.dict (R.info.map (fun p => (p.1, npCopy p.2)))),
        (kHeader, format_mat_struct R.header),
        (kCoordType, PyVal.npstr R.coord_type),
        (kName, PyVal.npstr R.name),
        (kVar, PyVal.npstr R.var)] ∧
    ∀ k s, ((k, PyVal.npstr s) ∈ R.info ∨ (k, PyVal.pstr s) ∈ R.info) →
      (k, PyVal.arr0s s) ∈ R.info.map (fun p => (p.1, npCopy p.2)) := by
  constructor
  · obtain ⟨ro, rm, re, ra, ri, rh, rc, rn, rv⟩ := R
    obtain ⟨m0, mr, rfl⟩ : ∃ m0 mr, rm = m0 :: mr := by
      cases rm with
      | nil => simp at hmap
      | cons m0 mr => exact ⟨m0, mr, rfl⟩
    obtain ⟨e0, er, rfl⟩ : ∃ e0 er, re = e0 :: er := by
      cases re with
      | nil => simp at hen
      | cons e0 er => exact ⟨e0, er, rfl⟩
    obtain ⟨a0, ar, rfl⟩ : ∃ a0 ar, ra = a0 :: ar := by
      cases ra with
      | nil => simp at hAve
      | cons a0 ar => exact ⟨a0, ar, rfl⟩
    have hstruct := structUnwrapFields_wrap ri
    simp only [mat2pymap, m2pLoop, m2pStep, m2pInfoBranch, m2pOpsBranch,
      pymap2mat, toAttrs, p2mEmit, format_mat_cell, format_mat_struct,
      pyGetIdx0, isNpStrScalar, dset, dget, pySwapaxes12, pySwapaxes01,
      exceptBind_ok, exceptBind_err, hstruct, npCopy_arr3i, npCopy_arr1i,
      List.foldl, List.map_map]
    rw [cellUnwrapList_of_arr1s ((fun v => npArrayWrap1 (npCopy v)) ∘ PyVal.pstr)
      (fun s => rfl) ro]
    simp [kOps, kMap, kEn, kE, kAve, kInfo, kHeader, kCoordType, kName, kVar,
      dset, dget, exceptBind_ok]
  · intro k s hk
    rcases hk with hk | hk
    · exact List.mem_map.mpr ⟨(k, PyVal.npstr s), hk, rfl⟩
    · exact List.mem_map.mpr ⟨(k, PyVal.pstr s), hk, rfl⟩

/-- Witness for the amended C1 at a concrete canonical record. -/
theorem roundtrip_amended_witness :
    mat2pymap newPymap (pymap2mat (toAttrs ⟨["nvl2pymap"], [[[1, 2], [3, 4]]],
        [5, 6], [7], [(kFILENAME, PyVal.npstr "f"), ("T", PyVal.npstr "300")],
        [("h1", PyVal.npstr "hv")], "r", "f", "f"⟩)) =
      Except.ok [(kOps, PyVal.list ((["nvl2pymap"] : List String).map PyVal.npstr)),
        (kMap, PyVal.arr3i (swap01 (swap12 [[[1, 2], [3, 4]]]))),
        (kEn, PyVal.arr1i [5, 6]),
        (kAve, PyVal.arr1i [7]),
        (kInfo, PyVal.dict (([(kFILENAME, PyVal.npstr "f"),
          ("T", PyVal.npstr "300")] : Attrs).map (fun p => (p.1, npCopy p.2)))),
        (kHeader, format_mat_struct [("h1", PyVal.npstr "hv")]),
        (kCoordType, PyVal.npstr "r"),
        (kName, PyVal.npstr "f"),
        (kVar, PyVal.npstr "f")] ∧
    ∀ k s, ((k, PyVal.npstr s) ∈ ([(kFILENAME, PyVal.npstr "f"),
        ("T", PyVal.npstr "300")] : Attrs) ∨
        (k, PyVal.pstr s) ∈ ([(kFILENAME, PyVal.npstr "f"),
        ("T", PyVal.npstr "300")] : Attrs)) →
      (k, PyVal.arr0s s) ∈ ([(kFILENAME, PyVal.npstr "f"),
        ("T", PyVal.npstr "300")] : Attrs).map (fun p => (p.1, npCopy p.2)) :=
  roundtrip_amended ⟨["nvl2pymap"], [[[1, 2], [3, 4]]], [5, 6], [7],
    [(kFILENAME, PyVal.npstr "f"), ("T", PyVal.npstr "300")],
    [("h1", PyVal.npstr "hv")], "r", "f", "f"⟩
    (by decide) (by decide) (by decide)
